import Mathlib

/-!
# Verification of the warehousing dashboard (`src/tutorial.py`)

Shallow embedding of the single-file Dash dashboard.  The two reactive
callbacks `timeline` and `products` are modelled as pure functions from the
database contents (a list of joined `order_facts` rows), the checkbox value,
and the slider time range, to a chart specification.

Modelling conventions:
* SQL timestamps/dates are `Int` (Unix timestamps); `datetime.fromtimestamp`
  is a monotone bijection, so every comparison is preserved.
* `sales_amount` (SQL numeric) is `Int`; no claim depends on fractional parts.
* `extract(week from dt)` / `extract(year from dt)` are carried as data fields
  of a fact row (they are functions of `dt`; no claim depends on calendar
  arithmetic).
* A pandas `DataFrame` built from a list of dicts has columns only when the
  list is non-empty; column access (`df['dt']`, `df.sales_amount`) and
  `groupby` on a column-less frame raise.  Callbacks therefore return
  `Except String _`, with `Except.error` marking a raised Python exception.
* `df.groupby(key)` (default `sort=True`) yields one group per distinct key,
  with groups ordered by ascending key and rows inside a group keeping their
  original order.
* SQL `GROUP BY` yields one row per distinct key (order unspecified; we pick
  the order `List.dedup` produces, which no claim depends on), `ROW_NUMBER()
  OVER (PARTITION BY country ORDER BY sales_amount DESC)` numbers each
  partition `1, 2, ...` after a descending sort.
-/

instance {ε α : Type} [DecidableEq ε] [DecidableEq α] :
    DecidableEq (Except ε α) := fun a b =>
  match a, b with
  | Except.error e1, Except.error e2 =>
    if h : e1 = e2 then isTrue (h ▸ rfl)
    else isFalse (fun hc => h (Except.error.inj hc))
  | Except.error _, Except.ok _ => isFalse (fun hc => Except.noConfusion hc)
  | Except.ok _, Except.error _ => isFalse (fun hc => Except.noConfusion hc)
  | Except.ok a1, Except.ok a2 =>
    if h : a1 = a2 then isTrue (h ▸ rfl)
    else isFalse (fun hc => h (Except.ok.inj hc))

/-- A fully joined `order_facts` row: the attributes the three SQL queries read
(`product_code`, `products.product_name`, `employees.country`, `dates.dt`,
`extract(week/year from dt)`, `sales_amount`). -/
structure FactRow where
  product_code : Nat
  product_name : String
  country : String
  dt : Int
  week : Nat
  year : Nat
  sales_amount : Int
deriving DecidableEq, Repr

/-- A row of `timeseries_query`: `sum(sales_amount), min(dt), year, week,
country`, grouped by `(week, year, country)`. -/
structure TSRow where
  sales_amount : Int
  dt : Int
  year : Nat
  week : Nat
  country : String
deriving DecidableEq, Repr

/-- Minimum of a list of integers (SQL `min` over a non-empty group). -/
def listMin : List Int → Int
  | [] => 0
  | x :: xs => xs.foldl min x

/-- Grouping key of `timeseries_query`: `group by week, year, country`. -/
def wycKey (f : FactRow) : Nat × Nat × String := (f.week, f.year, f.country)

/-- Relation used by the inner `order by dt` of `timeseries_query`. -/
def dtLe (a b : FactRow) : Prop := a.dt ≤ b.dt

instance : DecidableRel dtLe :=
  fun a b => inferInstanceAs (Decidable (a.dt ≤ b.dt))

/-- `timeseries_query` (line 12): order the joined facts by `dt`, group by
`(week, year, country)`, and emit `sum(sales_amount)` and `min(dt)` per
group. -/
def tsQuery (facts : List FactRow) : List TSRow :=
  let s := List.insertionSort dtLe facts
  ((s.map wycKey).dedup).map (fun k =>
    let g := s.filter (fun f => decide (wycKey f = k))
    { sales_amount := (g.map (·.sales_amount)).sum,
      dt := listMin (g.map (·.dt)),
      year := k.2.1,
      week := k.1,
      country := k.2.2 })

/-- Python truthiness test `boxes and 'by_country' in boxes` (lines 94 and
126): `None` and `[]` are falsy; otherwise membership decides. -/
def splitActive : Option (List String) → Bool
  | none => false
  | some bs => !bs.isEmpty && decide ("by_country" ∈ bs)

/-- The timeline filtering step (line 92):
`df[(df['dt'] > start) & (df['dt'] < finish)]`. -/
def filterWindow (start finish : Int) (dat : List TSRow) : List TSRow :=
  dat.filter (fun r => decide (start < r.dt) && decide (r.dt < finish))

/-- Pandas `df.groupby(key)` with the default `sort=True`: one group per
distinct key, groups in the order `sortKeys` produces (ascending key for
pandas), rows inside a group in original order. -/
def pandasGroupBy {α κ : Type} [DecidableEq κ] (sortKeys : List κ → List κ)
    (key : α → κ) (rows : List α) : List (κ × List α) :=
  (sortKeys ((rows.map key).dedup)).map
    (fun k => (k, rows.filter (fun r => decide (key r = k))))

/-- Lexicographic comparison of character lists by code point (Python string
comparison, which pandas uses to sort string group keys). -/
def charListLe : List Char → List Char → Bool
  | [], _ => true
  | _ :: _, [] => false
  | a :: as, b :: bs =>
    if a.toNat < b.toNat then true
    else if b.toNat < a.toNat then false
    else charListLe as bs

/-- Lexicographic order on strings by code point. -/
def strLe (a b : String) : Prop := charListLe a.data b.data = true

instance : DecidableRel strLe :=
  fun a b => inferInstanceAs (Decidable (charListLe a.data b.data = true))

theorem charListLe_total :
    ∀ as bs : List Char, charListLe as bs = true ∨ charListLe bs as = true := by
  intro as
  induction as with
  | nil => intro bs; left; rfl
  | cons a as ih =>
    intro bs
    cases bs with
    | nil => right; rfl
    | cons b bs =>
      by_cases h1 : a.toNat < b.toNat
      · left
        simp [charListLe, h1]
      · by_cases h2 : b.toNat < a.toNat
        · right
          simp [charListLe, h2]
        · rcases ih bs with h | h
          · left
            simp [charListLe, h1, h2, h]
          · right
            simp [charListLe, h1, h2, h]

theorem charListLe_trans :
    ∀ as bs cs : List Char, charListLe as bs = true → charListLe bs cs = true →
      charListLe as cs = true := by
  intro as
  induction as with
  | nil => intro bs cs _ _; rfl
  | cons a as ih =>
    intro bs cs hab hbc
    cases bs with
    | nil => simp [charListLe] at hab
    | cons b bs =>
      cases cs with
      | nil => simp [charListLe] at hbc
      | cons c cs =>
        rw [charListLe] at hab hbc ⊢
        by_cases h1 : a.toNat < b.toNat
        · have hbc2 : b.toNat ≤ c.toNat := by
            by_cases h2 : b.toNat < c.toNat
            · omega
            · by_cases h4 : c.toNat < b.toNat
              · simp [h2, h4] at hbc
              · omega
          have h5 : a.toNat < c.toNat := by omega
          simp [h5]
        · by_cases h3 : b.toNat < a.toNat
          · simp [h1, h3] at hab
          · have hab2 : charListLe as bs = true := by simpa [h1, h3] using hab
            by_cases h2 : b.toNat < c.toNat
            · have h5 : a.toNat < c.toNat := by omega
              simp [h5]
            · by_cases h4 : c.toNat < b.toNat
              · simp [h2, h4] at hbc
              · have hbc2 : charListLe bs cs = true := by simpa [h2, h4] using hbc
                have h5 : ¬a.toNat < c.toNat := by omega
                have h6 : ¬c.toNat < a.toNat := by omega
                simp only [h5, h6, if_false, ite_false]
                exact ih bs cs hab2 hbc2

instance : IsTotal String strLe :=
  ⟨fun a b => charListLe_total a.data b.data⟩

instance : IsTrans String strLe :=
  ⟨fun a b c => charListLe_trans a.data b.data c.data⟩

/-- Ascending sort on strings (pandas group-key order for a string column). -/
def sortStr (l : List String) : List String :=
  List.insertionSort strLe l

/-- Lexicographic order on `(week, year)` pairs (pandas MultiIndex order for
`groupby(['week', 'year'])`). -/
def wyLe (a b : Nat × Nat) : Prop :=
  a.1 < b.1 ∨ (a.1 = b.1 ∧ a.2 ≤ b.2)

instance : DecidableRel wyLe :=
  fun a b => inferInstanceAs (Decidable (a.1 < b.1 ∨ (a.1 = b.1 ∧ a.2 ≤ b.2)))

/-- Ascending sort on `(week, year)` keys. -/
def sortWY (l : List (Nat × Nat)) : List (Nat × Nat) :=
  List.insertionSort wyLe l

/-- One `go.Scatter` series of the timeline chart: `x` dates, `y` amounts,
optional legend name. -/
structure Series where
  xs : List Int
  ys : List Int
  sname : Option String
deriving DecidableEq, Repr

/-- The timeline figure: series list plus the layout title. -/
structure ChartSpec where
  data : List Series
  title : String
deriving DecidableEq, Repr

/-- Grouping key of the unsplit timeline branch: `groupby(['week', 'year'])`. -/
def wyKey (r : TSRow) : Nat × Nat := (r.week, r.year)

/-- Pandas `agg({'dt': 'first'})` for the `(week, year)` group `k`: the `dt`
of the first filtered row in the period (groups are never empty in the
pipeline; `0` is an unreachable default). -/
def firstDtOf (k : Nat × Nat) (rows : List TSRow) : Int :=
  ((rows.filter (fun r => decide (wyKey r = k))).head?).elim 0 (·.dt)

/-- Pandas `agg({'sales_amount': 'sum'})` for the `(week, year)` group `k`. -/
def sumAmtOf (k : Nat × Nat) (rows : List TSRow) : Int :=
  ((rows.filter (fun r => decide (wyKey r = k))).map (·.sales_amount)).sum

/-- The `timeline` callback (lines 87-116).  `dat` is the result of
`timeseries_query` over the whole database.  `pd.DataFrame([])` has no
columns, so `df['dt']` on an empty query result raises `KeyError`. -/
def timeline (dat : List TSRow) (boxes : Option (List String))
    (timeRange : Int × Int) : Except String ChartSpec :=
  let start := timeRange.1
  let finish := timeRange.2
  if dat.isEmpty then
    Except.error "KeyError: dt"
  else
    let df := filterWindow start finish dat
    if splitActive boxes then
      Except.ok
        { data := (pandasGroupBy sortStr (fun r => r.country) df).map
            (fun p =>
              { xs := p.2.map (·.dt),
                ys := p.2.map (·.sales_amount),
                sname := some p.1 }),
          title := "Sales Over Time" }
    else
      let ks := sortWY ((df.map wyKey).dedup)
      Except.ok
        { data := [{ xs := ks.map (fun k => firstDtOf k df),
                     ys := ks.map (fun k => sumAmtOf k df),
                     sname := none }],
          title := "Sales Over Time" }

/-- A row of `top_products_query`: `product_name, sum(sales_amount)`. -/
structure PRow where
  product_name : String
  sales_amount : Int
deriving DecidableEq, Repr

/-- Descending-amount order used by `ORDER BY sales_amount DESC`. -/
def prodGe (a b : PRow) : Prop := b.sales_amount ≤ a.sales_amount

instance : DecidableRel prodGe :=
  fun a b => inferInstanceAs (Decidable (b.sales_amount ≤ a.sales_amount))

instance : IsTotal PRow prodGe :=
  ⟨fun a b => le_total b.sales_amount a.sales_amount⟩

instance : IsTrans PRow prodGe :=
  ⟨fun _ _ _ hab hbc => le_trans hbc hab⟩

/-- Grouping key of `top_products_query`: `GROUP BY product_code,
product_name`. -/
def pcKey (f : FactRow) : Nat × String := (f.product_code, f.product_name)

/-- The SQL window predicate `dt > :start AND dt < :finish`. -/
def inWindow (start finish : Int) (f : FactRow) : Bool :=
  decide (start < f.dt) && decide (f.dt < finish)

/-- `top_products_query` (lines 15-25): filter to the open window, group by
`(product_code, product_name)` summing `sales_amount`, order descending by
amount, `LIMIT n`. -/
def topProducts (facts : List FactRow) (start finish : Int) (n : Nat) :
    List PRow :=
  let wf := facts.filter (inWindow start finish)
  let grouped := ((wf.map pcKey).dedup).map (fun k =>
    ({ product_name := k.2,
       sales_amount :=
         ((wf.filter (fun f => decide (pcKey f = k))).map
           (·.sales_amount)).sum } : PRow))
  (List.insertionSort prodGe grouped).take n

/-- A row of the `products_per_country` CTE (country, product name, summed
amount; the grouping key also carries `product_code`). -/
structure PPCRow where
  country : String
  product_name : String
  sales_amount : Int
deriving DecidableEq, Repr

/-- Descending-amount order used by the `ROW_NUMBER` window. -/
def ppcGe (a b : PPCRow) : Prop := b.sales_amount ≤ a.sales_amount

instance : DecidableRel ppcGe :=
  fun a b => inferInstanceAs (Decidable (b.sales_amount ≤ a.sales_amount))

instance : IsTotal PPCRow ppcGe :=
  ⟨fun a b => le_total b.sales_amount a.sales_amount⟩

instance : IsTrans PPCRow ppcGe :=
  ⟨fun _ _ _ hab hbc => le_trans hbc hab⟩

/-- Grouping key of `products_per_country`: `GROUP BY product_code,
product_name, employees.country`. -/
def pccKey (f : FactRow) : Nat × String × String :=
  (f.product_code, f.product_name, f.country)

/-- The `products_per_country` CTE (lines 29-36). -/
def productsPerCountry (facts : List FactRow) (start finish : Int) :
    List PPCRow :=
  let wf := facts.filter (inWindow start finish)
  ((wf.map pccKey).dedup).map (fun k =>
    { country := k.2.2,
      product_name := k.2.1,
      sales_amount :=
        ((wf.filter (fun f => decide (pccKey f = k))).map
          (·.sales_amount)).sum })

/-- A row of `top_products_by_country_query`'s result (with the
`row_number` column computed by the window function). -/
structure CRow where
  country : String
  product_name : String
  sales_amount : Int
  row_number : Nat
deriving DecidableEq, Repr

/-- `ROW_NUMBER()` numbering a partition starting at `k`. -/
def rankFrom (k : Nat) : List PPCRow → List CRow
  | [] => []
  | r :: rs =>
    { country := r.country, product_name := r.product_name,
      sales_amount := r.sales_amount, row_number := k } :: rankFrom (k + 1) rs

/-- Concatenation of per-key results (SQL partitions laid side by side). -/
def concatMap {α β : Type} (f : α → List β) : List α → List β
  | [] => []
  | a :: l => f a ++ concatMap f l

/-- One country partition of `top_products_by_country_query`: sort the
country's `products_per_country` rows by descending amount, assign
`row_number` from 1, and keep `row_number <= n`. -/
def countryChunk (ppc : List PPCRow) (n : Nat) (c : String) : List CRow :=
  (rankFrom 1
      (List.insertionSort ppcGe
        (ppc.filter (fun r => decide (r.country = c))))).filter
    (fun r => decide (r.row_number ≤ n))

/-- `top_products_by_country_query` (lines 27-42): partition
`products_per_country` by country, number rows per partition by descending
amount, and keep `row_number <= n`. -/
def topProductsByCountry (facts : List FactRow) (start finish : Int) (n : Nat) :
    List CRow :=
  let ppc := productsPerCountry facts start finish
  concatMap (countryChunk ppc n) ((ppc.map (·.country)).dedup)

/-- One `go.Bar` series of the products chart: `x` amounts, `y` labels
(product names, or countries in the split branch), optional legend name. -/
structure BarSeries where
  xs : List Int
  ys : List String
  sname : Option String
deriving DecidableEq, Repr

/-- The products figure: series list, layout title and `barmode`. -/
structure BarChart where
  data : List BarSeries
  title : String
  barmode : String
deriving DecidableEq, Repr

/-- The `products` callback (lines 123-147).  On an empty query result,
`pd.DataFrame([])` has no columns, so `df.sales_amount` raises
`AttributeError` (unsplit branch) and `df.groupby('product_name')` raises
`KeyError` (split branch). -/
def products (facts : List FactRow) (boxes : Option (List String))
    (timeRange : Int × Int) : Except String BarChart :=
  let start := timeRange.1
  let finish := timeRange.2
  if splitActive boxes then
    let res := topProductsByCountry facts start finish 3
    if res.isEmpty then
      Except.error "KeyError: product_name"
    else
      Except.ok
        { data := (pandasGroupBy sortStr (fun r : CRow => r.product_name)
              res).map
            (fun p =>
              { xs := p.2.map (·.sales_amount),
                ys := p.2.map (·.country),
                sname := some p.1 }),
          title := "Most Profitable Products",
          barmode := "stack" }
  else
    let res := topProducts facts start finish 5
    if res.isEmpty then
      Except.error "AttributeError: sales_amount"
    else
      Except.ok
        { data := [{ xs := res.map (·.sales_amount),
                     ys := res.map (·.product_name),
                     sname := none }],
          title := "Most Profitable Products",
          barmode := "stack" }

/-- Modelled from the spec: the series order the spec asserts for the split
timeline ("ordered by country name's first appearance") — distinct keys in
first-appearance order.  Used only to compare against the code's actual
(sorted) order. -/
def firstAppearanceOrder {κ : Type} [DecidableEq κ] (l : List κ) : List κ :=
  l.foldl (fun acc k => if k ∈ acc then acc else acc ++ [k]) []

/-- Legend names of the timeline series, in order (`[]` on a raised
exception). -/
def seriesNames (e : Except String ChartSpec) : List (Option String) :=
  match e with
  | Except.ok ch => ch.data.map (·.sname)
  | Except.error _ => []

/-- Sample time-series row (country "A"). -/
def rowA : TSRow :=
  { sales_amount := 10, dt := 3, year := 2003, week := 1, country := "A" }

/-- Sample time-series row (country "B", appearing first in `c4` data). -/
def rowB : TSRow :=
  { sales_amount := 7, dt := 1, year := 2003, week := 1, country := "B" }

/-- Sample time-series row (country "A", second in `c4` data). -/
def rowA2 : TSRow :=
  { sales_amount := 4, dt := 2, year := 2003, week := 1, country := "A" }

/-- Sample fact row. -/
def factA : FactRow :=
  { product_code := 1, product_name := "P", country := "A", dt := 3,
    week := 1, year := 2003, sales_amount := 5 }

/-- C1: for every valid window (`start ≤ finish`) the timeline filtering step
keeps exactly the rows whose date lies strictly inside the open interval
`(start, finish)`; rows with `dt = start` or `dt = finish` are excluded. -/
theorem timeline_filter_open_interval (start finish : Int) (dat : List TSRow)
    (hw : start ≤ finish) (r : TSRow) :
    (r ∈ filterWindow start finish dat ↔
      r ∈ dat ∧ start < r.dt ∧ r.dt < finish) ∧
    (r ∈ filterWindow start finish dat → r.dt ≠ start ∧ r.dt ≠ finish) := by
  constructor
  · simp [filterWindow, List.mem_filter, and_assoc]
  · intro hr
    have h := (List.mem_filter.mp hr).2
    simp only [Bool.and_eq_true, decide_eq_true_eq] at h
    exact ⟨ne_of_gt h.1, ne_of_lt h.2⟩

/-- Witness for C1: the filter equivalence evaluated at a concrete window and
row set. -/
theorem timeline_filter_open_interval_witness :
    ((rowA ∈ filterWindow 0 10 [rowA] ↔
       rowA ∈ [rowA] ∧ 0 < rowA.dt ∧ rowA.dt < 10) ∧
     (rowA ∈ filterWindow 0 10 [rowA] → rowA.dt ≠ 0 ∧ rowA.dt ≠ 10)) :=
  timeline_filter_open_interval 0 10 [rowA] (by decide) rowA

/-- C9: the chart builders are deterministic and side-effect free - two
invocations with identical inputs yield identical chart specifications. -/
theorem chart_builders_deterministic (dat : List TSRow) (facts : List FactRow)
    (boxes : Option (List String)) (timeRange : Int × Int) :
    timeline dat boxes timeRange = timeline dat boxes timeRange ∧
    products facts boxes timeRange = products facts boxes timeRange :=
  ⟨rfl, rfl⟩

/-- C10: the country-split branch is taken exactly when the checkbox value is
a non-empty list containing `"by_country"` (`None`, `[]`, and lists without
`"by_country"` take the aggregate branch), and both callbacks depend on the
checkbox value only through this test. -/
theorem split_flag_semantics (boxes : Option (List String)) :
    (splitActive boxes = true ↔
      ∃ bs, boxes = some bs ∧ bs ≠ [] ∧ "by_country" ∈ bs) ∧
    ∀ boxes2 dat facts timeRange, splitActive boxes = splitActive boxes2 →
      timeline dat boxes timeRange = timeline dat boxes2 timeRange ∧
      products facts boxes timeRange = products facts boxes2 timeRange := by
  constructor
  · cases boxes with
    | none => simp [splitActive]
    | some bs =>
      simp only [splitActive, Bool.and_eq_true, Bool.not_eq_true',
        List.isEmpty_eq_false, decide_eq_true_eq, Option.some.injEq]
      constructor
      · intro h
        exact ⟨bs, rfl, h.1, h.2⟩
      · rintro ⟨bs2, hbs, h1, h2⟩
        subst hbs
        exact ⟨h1, h2⟩
  · intro boxes2 dat facts timeRange h
    have ht : timeline dat boxes timeRange = timeline dat boxes2 timeRange := by
      unfold timeline
      rw [h]
    have hp : products facts boxes timeRange =
        products facts boxes2 timeRange := by
      unfold products
      rw [h]
    exact ⟨ht, hp⟩

/-- Witness for C10: two checkbox values with equal split tests give equal
charts. -/
theorem split_flag_semantics_witness :
    timeline [rowA] none (0, 10) = timeline [rowA] (some []) (0, 10) ∧
    products [factA] none (0, 10) = products [factA] (some []) (0, 10) :=
  (split_flag_semantics none).2 (some []) [rowA] [factA] (0, 10) rfl

/-- C6: for every window and limit `n`, `top_products_query` returns at most
`n` rows, sorted by non-increasing total sales amount. -/
theorem topProducts_limit_sorted (facts : List FactRow) (start finish : Int)
    (n : Nat) :
    (topProducts facts start finish n).length ≤ n ∧
    List.Sorted (fun a b : PRow => b.sales_amount ≤ a.sales_amount)
      (topProducts facts start finish n) := by
  simp only [topProducts]
  constructor
  · exact List.length_take_le n _
  · exact List.Pairwise.sublist (List.take_sublist n _)
      (List.sorted_insertionSort prodGe _)

/-- C3 evaluation: at a degenerate window over a non-empty database, the
timeline renders a chart with zero data points on both paths and raises
nothing, but the products callback raises on both paths because
`pd.DataFrame([])` built from the empty query result has no columns. -/
theorem degenerate_window_behavior :
    timeline [rowA] none (5, 5) =
      Except.ok { data := [{ xs := [], ys := [], sname := none }],
                  title := "Sales Over Time" } ∧
    timeline [rowA] (some ["by_country"]) (5, 5) =
      Except.ok { data := [], title := "Sales Over Time" } ∧
    products [factA] none (5, 5) =
      Except.error "AttributeError: sales_amount" ∧
    products [factA] (some ["by_country"]) (5, 5) =
      Except.error "KeyError: product_name" ∧
    products [factA] none (7, 2) =
      Except.error "AttributeError: sales_amount" := by
  refine ⟨?_, ?_, ?_, ?_, ?_⟩ <;> decide

/-- C7: with the split inactive, the timeline emits exactly one series with
one point per distinct `(week, year)` period of the filtered rows, whose `y`
is the period's summed amount and whose `x` is the first date label occurring
in the period. -/
theorem timeline_unsplit_week_year_agg (dat : List TSRow)
    (boxes : Option (List String)) (timeRange : Int × Int)
    (h1 : dat ≠ []) (h2 : splitActive boxes = false) :
    ∃ ks : List (Nat × Nat),
      ks.Perm ((filterWindow timeRange.1 timeRange.2 dat).map wyKey).dedup ∧
      timeline dat boxes timeRange = Except.ok
        { data := [{ xs := ks.map (fun k =>
                       firstDtOf k (filterWindow timeRange.1 timeRange.2 dat)),
                     ys := ks.map (fun k =>
                       sumAmtOf k (filterWindow timeRange.1 timeRange.2 dat)),
                     sname := none }],
          title := "Sales Over Time" } := by
  refine ⟨sortWY ((filterWindow timeRange.1 timeRange.2 dat).map wyKey).dedup,
    ?_, ?_⟩
  · exact List.perm_insertionSort wyLe _
  · have hne : dat.isEmpty = false := List.isEmpty_eq_false.mpr h1
    simp only [timeline, hne, Bool.false_eq_true, if_false, h2]

/-- Witness for C7 at a concrete row set and window. -/
theorem timeline_unsplit_week_year_agg_witness :
    ∃ ks : List (Nat × Nat),
      ks.Perm ((filterWindow 0 10 [rowA]).map wyKey).dedup ∧
      timeline [rowA] none (0, 10) = Except.ok
        { data := [{ xs := ks.map (fun k => firstDtOf k (filterWindow 0 10 [rowA])),
                     ys := ks.map (fun k => sumAmtOf k (filterWindow 0 10 [rowA])),
                     sname := none }],
          title := "Sales Over Time" } :=
  timeline_unsplit_week_year_agg [rowA] none (0, 10) (by decide) rfl

/-- C4 counterexample: with the filtered rows carrying countries in
first-appearance order B, A, the split timeline emits its series in ascending
name order A, B (pandas sorts group keys), so the series do not follow the
first-appearance order asserted by the claim. -/
theorem timeline_split_order_counterexample :
    seriesNames (timeline [rowB, rowA2] (some ["by_country"]) (0, 10)) =
      [some "A", some "B"] ∧
    firstAppearanceOrder
        ((filterWindow 0 10 [rowB, rowA2]).map (·.country)) = ["B", "A"] := by
  constructor <;> decide

/-- C4 amended: with the split active the timeline has one series per
distinct country of the filtered rows, each series carrying that country's
(date, total) pairs in filtered-row order, but the series appear in ascending
country-name order (pandas `groupby` sorts its group keys), not in order of
first appearance. -/
theorem timeline_split_sorted_series (dat : List TSRow)
    (boxes : Option (List String)) (timeRange : Int × Int)
    (h1 : dat ≠ []) (h2 : splitActive boxes = true) :
    ∃ cs, List.Sorted strLe cs ∧
      cs.Perm
        (((filterWindow timeRange.1 timeRange.2 dat).map (·.country)).dedup) ∧
      timeline dat boxes timeRange = Except.ok
        { data := cs.map (fun c =>
            { xs := ((filterWindow timeRange.1 timeRange.2 dat).filter
                (fun r => decide (r.country = c))).map (·.dt),
              ys := ((filterWindow timeRange.1 timeRange.2 dat).filter
                (fun r => decide (r.country = c))).map (·.sales_amount),
              sname := some c }),
          title := "Sales Over Time" } := by
  refine ⟨sortStr
    (((filterWindow timeRange.1 timeRange.2 dat).map (·.country)).dedup),
    ?_, ?_, ?_⟩
  · exact List.sorted_insertionSort strLe _
  · exact List.perm_insertionSort strLe _
  · have hne : dat.isEmpty = false := List.isEmpty_eq_false.mpr h1
    simp only [timeline, hne, Bool.false_eq_true, if_false, h2, if_true,
      pandasGroupBy, List.map_map, Function.comp_def]

/-- Witness for C4's amended statement at a concrete row set. -/
theorem timeline_split_sorted_series_witness :
    ∃ cs, List.Sorted strLe cs ∧
      cs.Perm (((filterWindow 0 10 [rowB, rowA2]).map (·.country)).dedup) ∧
      timeline [rowB, rowA2] (some ["by_country"]) (0, 10) = Except.ok
        { data := cs.map (fun c =>
            { xs := ((filterWindow 0 10 [rowB, rowA2]).filter
                (fun r => decide (r.country = c))).map (·.dt),
              ys := ((filterWindow 0 10 [rowB, rowA2]).filter
                (fun r => decide (r.country = c))).map (·.sales_amount),
              sname := some c }),
          title := "Sales Over Time" } :=
  timeline_split_sorted_series [rowB, rowA2] (some ["by_country"]) (0, 10)
    (by decide) rfl

/-- C5 counterexample: on an empty query result (a window containing no
facts), the unsplit products callback raises `AttributeError` instead of
producing a chart, so no chart with exactly one bar series exists. -/
theorem products_empty_result_error :
    products [factA] none (0, 0) =
      Except.error "AttributeError: sales_amount" := by
  decide

/-- C5 amended: for every non-empty query result, the unsplit products chart
has exactly one bar series and the split chart has one bar series per
distinct product name in the result set.  (On an empty query result the
callback raises instead of producing a chart.) -/
theorem products_series_count (facts : List FactRow)
    (boxes : Option (List String)) (timeRange : Int × Int) :
    (splitActive boxes = false →
      topProducts facts timeRange.1 timeRange.2 5 ≠ [] →
      ∃ ch, products facts boxes timeRange = Except.ok ch ∧
        ch.data.length = 1) ∧
    (splitActive boxes = true →
      topProductsByCountry facts timeRange.1 timeRange.2 3 ≠ [] →
      ∃ ch, products facts boxes timeRange = Except.ok ch ∧
        ch.data.length =
          (((topProductsByCountry facts timeRange.1 timeRange.2 3).map
            (·.product_name)).dedup).length) := by
  constructor
  · intro h2 hne
    have he : (topProducts facts timeRange.1 timeRange.2 5).isEmpty = false :=
      List.isEmpty_eq_false.mpr hne
    refine ⟨{ data := [{ xs := (topProducts facts timeRange.1
                           timeRange.2 5).map (·.sales_amount),
                         ys := (topProducts facts timeRange.1
                           timeRange.2 5).map (·.product_name),
                         sname := none }],
              title := "Most Profitable Products",
              barmode := "stack" }, ?_, rfl⟩
    simp only [products, h2, Bool.false_eq_true, if_false, he]
  · intro h2 hne
    have he : (topProductsByCountry facts timeRange.1 timeRange.2 3).isEmpty
        = false := List.isEmpty_eq_false.mpr hne
    have hprod : products facts boxes timeRange = Except.ok
        { data :=
            (pandasGroupBy sortStr (fun r : CRow => r.product_name)
                (topProductsByCountry facts timeRange.1 timeRange.2 3)).map
              (fun p =>
                { xs := p.2.map (·.sales_amount),
                  ys := p.2.map (·.country),
                  sname := some p.1 }),
          title := "Most Profitable Products",
          barmode := "stack" } := by
      simp only [products, h2, if_true, he, Bool.false_eq_true, if_false]
    refine ⟨_, hprod, ?_⟩
    simp only [pandasGroupBy, List.length_map, sortStr]
    exact (List.perm_insertionSort strLe _).length_eq

/-- Witness for C5's amended statement: both branches at a concrete non-empty
result. -/
theorem products_series_count_witness :
    (∃ ch, products [factA] none (0, 10) = Except.ok ch ∧
      ch.data.length = 1) ∧
    (∃ ch, products [factA] (some ["by_country"]) (0, 10) = Except.ok ch ∧
      ch.data.length =
        (((topProductsByCountry [factA] 0 10 3).map
          (·.product_name)).dedup).length) :=
  ⟨(products_series_count [factA] none (0, 10)).1 rfl (by decide),
   (products_series_count [factA] (some ["by_country"]) (0, 10)).2
     (by decide) (by decide)⟩

theorem mem_concatMap {α β : Type} {f : α → List β} {x : β} :
    ∀ {l : List α}, x ∈ concatMap f l ↔ ∃ a ∈ l, x ∈ f a := by
  intro l
  induction l with
  | nil => simp [concatMap]
  | cons a l ih => simp [concatMap, ih]

theorem filter_concatMap {α β : Type} (p : β → Bool) (f : α → List β) :
    ∀ l : List α,
      (concatMap f l).filter p = concatMap (fun a => (f a).filter p) l := by
  intro l
  induction l with
  | nil => rfl
  | cons a l ih => simp only [concatMap, List.filter_append, ih]

theorem concatMap_congr {α β : Type} {f g : α → List β} :
    ∀ {l : List α}, (∀ a ∈ l, f a = g a) → concatMap f l = concatMap g l := by
  intro l
  induction l with
  | nil => intro _; rfl
  | cons a l ih =>
    intro h
    rw [concatMap, concatMap, h a (List.mem_cons_self a l),
      ih (fun x hx => h x (List.mem_cons_of_mem a hx))]

theorem concatMap_if_single {α β : Type} [DecidableEq α] (f : α → List β)
    (c : α) :
    ∀ l : List α, l.Nodup →
      concatMap (fun a => if a = c then f a else []) l =
        if c ∈ l then f c else [] := by
  intro l
  induction l with
  | nil => intro _; simp [concatMap]
  | cons a l ih =>
    intro hnd
    rcases List.nodup_cons.mp hnd with ⟨ha, hnd2⟩
    rw [concatMap]
    by_cases h : a = c
    · subst h
      rw [if_pos rfl, ih hnd2, if_neg ha, if_pos (List.mem_cons_self a l)]
      simp
    · rw [if_neg h, ih hnd2]
      by_cases hcl : c ∈ l
      · rw [if_pos hcl, if_pos (List.mem_cons_of_mem a hcl)]
        simp
      · rw [if_neg hcl, if_neg ?_]
        · simp
        · intro hc
          rcases List.mem_cons.mp hc with h2 | h2
          · exact h h2.symm
          · exact hcl h2

theorem mem_rankFrom {x : CRow} :
    ∀ {l : List PPCRow} {k : Nat}, x ∈ rankFrom k l →
      ∃ r ∈ l, x.country = r.country ∧ x.sales_amount = r.sales_amount := by
  intro l
  induction l with
  | nil =>
    intro k h
    simp [rankFrom] at h
  | cons r rs ih =>
    intro k h
    rw [rankFrom] at h
    rcases List.mem_cons.mp h with h | h
    · exact ⟨r, List.mem_cons_self r rs, by rw [h], by rw [h]⟩
    · obtain ⟨r2, hr2, hc, ha⟩ := ih h
      exact ⟨r2, List.mem_cons_of_mem r hr2, hc, ha⟩

theorem rankFrom_map_amount :
    ∀ (l : List PPCRow) (k : Nat),
      (rankFrom k l).map (·.sales_amount) = l.map (·.sales_amount) := by
  intro l
  induction l with
  | nil => intro k; rfl
  | cons r rs ih =>
    intro k
    simp [rankFrom, ih]

theorem rankFrom_sorted {l : List PPCRow} (h : List.Sorted ppcGe l) (k : Nat) :
    List.Sorted (fun a b : CRow => b.sales_amount ≤ a.sales_amount)
      (rankFrom k l) := by
  have h2 : ((rankFrom k l).map (·.sales_amount)).Pairwise
      (fun x y : Int => y ≤ x) := by
    rw [rankFrom_map_amount]
    exact List.pairwise_map.mpr h
  exact List.pairwise_map.mp h2

theorem rankFrom_filter_ranks (n : Nat) :
    ∀ (l : List PPCRow) (k : Nat),
      ((rankFrom k l).filter (fun r => decide (r.row_number ≤ n))).map
        (·.row_number) = List.range' k (min l.length (n + 1 - k)) := by
  intro l
  induction l with
  | nil =>
    intro k
    simp [rankFrom]
  | cons r rs ih =>
    intro k
    rw [rankFrom]
    by_cases hk : k ≤ n
    · have e1 : min (rs.length + 1) (n + 1 - k) = min rs.length (n - k) + 1 :=
        by omega
      have e2 : n + 1 - (k + 1) = n - k := by omega
      simp only [List.filter_cons, decide_eq_true_eq, hk, if_pos,
        List.length_cons, List.map_cons, e1, List.range'_succ, if_true]
      have := ih (k + 1)
      rw [e2] at this
      rw [this]
    · have e1 : n + 1 - k = 0 := by omega
      have e2 : n + 1 - (k + 1) = 0 := by omega
      have hfilter :
          ((({ country := r.country, product_name := r.product_name,
               sales_amount := r.sales_amount, row_number := k } : CRow)
             :: rankFrom (k + 1) rs).filter
            (fun r => decide (r.row_number ≤ n))) =
          (rankFrom (k + 1) rs).filter
            (fun r => decide (r.row_number ≤ n)) := by
        rw [List.filter_cons]
        simp [hk]
      rw [hfilter]
      have := ih (k + 1)
      rw [e2] at this
      simp only [this, e1, List.length_cons, Nat.min_zero, List.range'_zero]

theorem countryChunk_country {ppc : List PPCRow} {n : Nat} {cc : String} :
    ∀ x ∈ countryChunk ppc n cc, x.country = cc := by
  intro x hx
  simp only [countryChunk] at hx
  have hx2 := List.mem_of_mem_filter hx
  obtain ⟨r, hr, hc, _⟩ := mem_rankFrom hx2
  have hr2 : r ∈ ppc.filter (fun r => decide (r.country = cc)) :=
    (List.perm_insertionSort ppcGe _).mem_iff.mp hr
  rw [hc]
  have h3 := (List.mem_filter.mp hr2).2
  simpa using h3

theorem countryChunk_filter_self {ppc : List PPCRow} {n : Nat}
    (cc c : String) :
    (countryChunk ppc n cc).filter (fun r => decide (r.country = c)) =
      if cc = c then countryChunk ppc n cc else [] := by
  by_cases h : cc = c
  · subst h
    rw [if_pos rfl]
    apply List.filter_eq_self.mpr
    intro x hx
    exact decide_eq_true (countryChunk_country x hx)
  · rw [if_neg h]
    apply List.filter_eq_nil_iff.mpr
    intro x hx
    have hc := countryChunk_country x hx
    simp [hc, h]

theorem topProductsByCountry_filter_country (facts : List FactRow)
    (start finish : Int) (n : Nat) (c : String) :
    (topProductsByCountry facts start finish n).filter
        (fun r => decide (r.country = c)) =
      (if c ∈ ((productsPerCountry facts start finish).map (·.country)).dedup
       then countryChunk (productsPerCountry facts start finish) n c
       else []) := by
  simp only [topProductsByCountry]
  rw [filter_concatMap]
  rw [concatMap_congr (fun cc _ => countryChunk_filter_self cc c)]
  exact concatMap_if_single
    (countryChunk (productsPerCountry facts start finish) n) c _
    (List.nodup_dedup _)

theorem countryChunk_ranks (ppc : List PPCRow) (n : Nat) (c : String) :
    (countryChunk ppc n c).map (·.row_number) =
      List.range' 1 (countryChunk ppc n c).length := by
  simp only [countryChunk]
  have e := rankFrom_filter_ranks n
    (List.insertionSort ppcGe (ppc.filter (fun r => decide (r.country = c)))) 1
  have e2 : n + 1 - 1 = n := by omega
  rw [e2] at e
  have hlen := congrArg List.length e
  rw [List.length_map] at hlen
  rw [e, hlen]
  simp

/-- C2: every row of `top_products_by_country_query` has `row_number ≤ n`,
and restricted to a fixed country the assigned ranks form the contiguous
sequence `1, ..., k` with non-increasing total sales amounts along that
order. -/
theorem topProductsByCountry_rank_invariant (facts : List FactRow)
    (start finish : Int) (n : Nat) (c : String) :
    (((topProductsByCountry facts start finish n).filter
        (fun r => decide (r.country = c))).map (·.row_number) =
      List.range' 1 ((topProductsByCountry facts start finish n).filter
        (fun r => decide (r.country = c))).length) ∧
    List.Sorted (fun a b : CRow => b.sales_amount ≤ a.sales_amount)
      ((topProductsByCountry facts start finish n).filter
        (fun r => decide (r.country = c))) ∧
    ∀ r ∈ topProductsByCountry facts start finish n, r.row_number ≤ n := by
  refine ⟨?_, ?_, ?_⟩
  · rw [topProductsByCountry_filter_country]
    by_cases hmem :
      c ∈ ((productsPerCountry facts start finish).map (·.country)).dedup
    · rw [if_pos hmem]
      exact countryChunk_ranks (productsPerCountry facts start finish) n c
    · rw [if_neg hmem]
      rfl
  · rw [topProductsByCountry_filter_country]
    by_cases hmem :
      c ∈ ((productsPerCountry facts start finish).map (·.country)).dedup
    · rw [if_pos hmem]
      simp only [countryChunk]
      exact List.Pairwise.filter _
        (rankFrom_sorted (List.sorted_insertionSort ppcGe _) 1)
    · rw [if_neg hmem]
      exact List.sorted_nil
  · intro r hr
    simp only [topProductsByCountry] at hr
    obtain ⟨cc, _, hrc⟩ := mem_concatMap.mp hr
    simp only [countryChunk] at hrc
    have h3 := (List.mem_filter.mp hrc).2
    simpa using h3

/-- Sample ranked row: the single result row of the by-country query over
`[factA]` with window `(0, 10)`. -/
def crowEx : CRow :=
  { country := "A", product_name := "P", sales_amount := 5, row_number := 1 }

/-- Witness for C2 at a concrete fact set, window, limit and country. -/
theorem topProductsByCountry_rank_invariant_witness :
    (((topProductsByCountry [factA] 0 10 3).filter
        (fun r => decide (r.country = "A"))).map (·.row_number) =
      List.range' 1 ((topProductsByCountry [factA] 0 10 3).filter
        (fun r => decide (r.country = "A"))).length) ∧
    List.Sorted (fun a b : CRow => b.sales_amount ≤ a.sales_amount)
      ((topProductsByCountry [factA] 0 10 3).filter
        (fun r => decide (r.country = "A"))) ∧
    crowEx.row_number ≤ 3 := by
  have h := topProductsByCountry_rank_invariant [factA] 0 10 3 "A"
  exact ⟨h.1, h.2.1, h.2.2 crowEx (by decide)⟩

theorem dedup_const {α : Type} [DecidableEq α] (c : α) :
    ∀ l : List α, l ≠ [] → (∀ x ∈ l, x = c) → l.dedup = [c] := by
  intro l
  induction l with
  | nil => intro h _; exact absurd rfl h
  | cons a l ih =>
    intro _ hall
    have ha : a = c := hall a (List.mem_cons_self a l)
    cases l with
    | nil => simp [ha]
    | cons b l2 =>
      have hl : (b :: l2) ≠ [] := by simp
      have hall2 : ∀ x ∈ b :: l2, x = c :=
        fun x hx => hall x (List.mem_cons_of_mem a hx)
      have hb : b = c := hall2 b (List.mem_cons_self b l2)
      have hmem : a ∈ b :: l2 := by
        rw [ha, ← hb]
        exact List.mem_cons_self b l2
      rw [List.dedup_cons_of_mem hmem]
      exact ih hl hall2

theorem filter_key_nodup {α κ : Type} [DecidableEq κ] (key : α → κ) :
    ∀ l : List α, (l.map key).Nodup → ∀ r ∈ l,
      l.filter (fun x => decide (key x = key r)) = [r] := by
  intro l
  induction l with
  | nil =>
    intro _ r hr
    exact absurd hr (List.not_mem_nil r)
  | cons a l ih =>
    intro hnd r hr
    rw [List.map_cons] at hnd
    rcases List.nodup_cons.mp hnd with ⟨hka, hndl⟩
    rw [List.filter_cons]
    rcases List.mem_cons.mp hr with h | h
    · subst h
      rw [if_pos (by simp)]
      have hnil : l.filter (fun x => decide (key x = key r)) = [] := by
        apply List.filter_eq_nil_iff.mpr
        intro x hx
        simp only [decide_eq_true_eq]
        intro hxa
        exact hka (hxa ▸ List.mem_map_of_mem key hx)
      rw [hnil]
    · have hkar : ¬(key a = key r) := by
        intro he
        exact hka (he ▸ List.mem_map_of_mem key h)
      rw [if_neg (by simpa using hkar)]
      exact ih hndl r h

theorem tsKeys_country {facts : List FactRow} {c : String}
    (hc : ∀ f ∈ facts, f.country = c) :
    ∀ k ∈ ((List.insertionSort dtLe facts).map wycKey).dedup, k.2.2 = c := by
  intro k hk
  obtain ⟨f, hf, hfk⟩ := List.mem_map.mp (List.mem_dedup.mp hk)
  have hfm : f ∈ facts := (List.perm_insertionSort dtLe facts).mem_iff.mp hf
  rw [← hfk]
  exact hc f hfm

theorem tsQuery_country {facts : List FactRow} {c : String}
    (hc : ∀ f ∈ facts, f.country = c) :
    ∀ r ∈ tsQuery facts, r.country = c := by
  intro r hr
  simp only [tsQuery] at hr
  obtain ⟨k, hk, hrk⟩ := List.mem_map.mp hr
  have hkc : k.2.2 = c := tsKeys_country hc k hk
  rw [← hrk]
  exact hkc

theorem tsQuery_wyKey_nodup {facts : List FactRow} {c : String}
    (hc : ∀ f ∈ facts, f.country = c) :
    ((tsQuery facts).map wyKey).Nodup := by
  simp only [tsQuery, List.map_map]
  apply (List.nodup_dedup _).map_on
  intro k1 hk1 k2 hk2 he
  have h3a : k1.2.2 = c := tsKeys_country hc k1 hk1
  have h3b : k2.2.2 = c := tsKeys_country hc k2 hk2
  obtain ⟨a1, b1, c1⟩ := k1
  obtain ⟨a2, b2, c2⟩ := k2
  have h1 : a1 = a2 := congrArg Prod.fst he
  have h2 : b1 = b2 := congrArg (fun p => p.2) he
  have h3c : c1 = c := h3a
  have h3d : c2 = c := h3b
  subst h1
  subst h2
  subst h3c
  subst h3d
  rfl

theorem timeline_single_country_general (dat : List TSRow) (c : String)
    (boxes boxes2 : Option (List String)) (timeRange : Int × Int)
    (hc2 : ∀ r ∈ dat, r.country = c)
    (hnd0 : (dat.map wyKey).Nodup)
    (hne : filterWindow timeRange.1 timeRange.2 dat ≠ [])
    (hs : splitActive boxes = true) (hu : splitActive boxes2 = false) :
    ∃ s1 s2 : Series,
      timeline dat boxes timeRange =
        Except.ok { data := [s1], title := "Sales Over Time" } ∧
      timeline dat boxes2 timeRange =
        Except.ok { data := [s2], title := "Sales Over Time" } ∧
      (s1.xs.zip s1.ys).Perm (s2.xs.zip s2.ys) := by
  set df := filterWindow timeRange.1 timeRange.2 dat with hdf
  have hdatne : dat ≠ [] := by
    intro h
    apply hne
    rw [hdf, h]
    rfl
  have hne2 : dat.isEmpty = false := List.isEmpty_eq_false.mpr hdatne
  have hdfc : ∀ r ∈ df, r.country = c :=
    fun r hr => hc2 r (List.mem_of_mem_filter hr)
  have hnd : (df.map wyKey).Nodup :=
    hnd0.sublist ((List.filter_sublist dat).map wyKey)
  have hded : (df.map (·.country)).dedup = [c] := by
    apply dedup_const c _ ?_ ?_
    · intro hmapnil
      exact hne (List.map_eq_nil_iff.mp hmapnil)
    · intro x hx
      obtain ⟨r, hr, hxr⟩ := List.mem_map.mp hx
      rw [← hxr]
      exact hdfc r hr
  have hfc : df.filter (fun r => decide (r.country = c)) = df :=
    List.filter_eq_self.mpr (fun r hr => decide_eq_true (hdfc r hr))
  refine ⟨⟨df.map (·.dt), df.map (·.sales_amount), some c⟩,
    ⟨(sortWY ((df.map wyKey).dedup)).map (fun k => firstDtOf k df),
     (sortWY ((df.map wyKey).dedup)).map (fun k => sumAmtOf k df),
     none⟩, ?_, ?_, ?_⟩
  · simp only [timeline, hne2, Bool.false_eq_true, if_false, hs, if_true,
      pandasGroupBy]
    rw [← hdf, hded]
    rw [show sortStr [c] = [c] from rfl]
    simp only [List.map_cons, List.map_nil, hfc]
  · simp only [timeline, hne2, Bool.false_eq_true, if_false, hu]
  · have key :
        ((df.map (·.dt)).zip (df.map (·.sales_amount))).Perm
          (((sortWY ((df.map wyKey).dedup)).map (fun k => firstDtOf k df)).zip
            ((sortWY ((df.map wyKey).dedup)).map (fun k => sumAmtOf k df))) := by
      rw [List.zip_map', List.zip_map']
      have h2 : (df.map wyKey).dedup = df.map wyKey := List.dedup_eq_self.mpr hnd
      rw [h2]
      have hperm := List.perm_insertionSort wyLe (df.map wyKey)
      have hmap := hperm.map (fun k => (firstDtOf k df, sumAmtOf k df))
      rw [List.map_map] at hmap
      have hpt : df.map ((fun k => (firstDtOf k df, sumAmtOf k df)) ∘ wyKey) =
          df.map (fun r => (r.dt, r.sales_amount)) := by
        apply List.map_congr_left
        intro r hr
        have hfil : df.filter (fun x => decide (wyKey x = wyKey r)) = [r] :=
          filter_key_nodup wyKey df hnd r hr
        simp only [Function.comp_def, firstDtOf, sumAmtOf, hfil]
        simp
      rw [hpt] at hmap
      exact hmap.symm
    exact key

/-- C8 counterexample: a single-country dataset produced by the time-series
query, under a window excluding every row - the split timeline has zero
series, not exactly one. -/
theorem timeline_single_country_counterexample :
    timeline (tsQuery [factA]) (some ["by_country"]) (5, 5) =
      Except.ok { data := [], title := "Sales Over Time" } := by
  decide

/-- C8 amended: over a dataset produced by the time-series query from facts
that all carry one country, and a window whose filtered row set is
non-empty, the split timeline consists of exactly one series whose
(date, total) point multiset equals that of the single unsplit aggregate
series. -/
theorem timeline_single_country_split_agg (facts : List FactRow) (c : String)
    (boxes boxes2 : Option (List String)) (timeRange : Int × Int)
    (hc : ∀ f ∈ facts, f.country = c)
    (hne : filterWindow timeRange.1 timeRange.2 (tsQuery facts) ≠ [])
    (hs : splitActive boxes = true) (hu : splitActive boxes2 = false) :
    ∃ s1 s2 : Series,
      timeline (tsQuery facts) boxes timeRange =
        Except.ok { data := [s1], title := "Sales Over Time" } ∧
      timeline (tsQuery facts) boxes2 timeRange =
        Except.ok { data := [s2], title := "Sales Over Time" } ∧
      (s1.xs.zip s1.ys).Perm (s2.xs.zip s2.ys) :=
  timeline_single_country_general (tsQuery facts) c boxes boxes2 timeRange
    (tsQuery_country hc) (tsQuery_wyKey_nodup hc) hne hs hu

/-- Witness for C8's amended statement at a concrete single-country fact
set. -/
theorem timeline_single_country_split_agg_witness :
    ∃ s1 s2 : Series,
      timeline (tsQuery [factA]) (some ["by_country"]) (0, 10) =
        Except.ok { data := [s1], title := "Sales Over Time" } ∧
      timeline (tsQuery [factA]) none (0, 10) =
        Except.ok { data := [s2], title := "Sales Over Time" } ∧
      (s1.xs.zip s1.ys).Perm (s2.xs.zip s2.ys) :=
  timeline_single_country_split_agg [factA] "A" (some ["by_country"]) none
    (0, 10) (by decide) (by decide) rfl rfl
